import Mathlib

/-!
Verification of the S2Match SDK client (s2match.py) against its
natural-language specification.  The relevant parts of the client are
shallowly embedded: the retrying request executor, the fetcher/cache layer,
the player-record transformer, and the filtering/aggregation helpers.
Machine-level concerns (the `requests` transport, `random.random()`,
`json.loads`, datetime parsing) are modelled as explicit oracle parameters;
numeric values use `Nat`/`Int`/`ℚ`.
-/

namespace S2Match

/-! ## Retrying request executor (s2match.py, `_calculate_backoff_delay`,
`_make_request_with_retry`) -/

/-- Embedding of `_calculate_backoff_delay` (s2match.py lines 140-166).
`u` stands for the value of `random.random()`, a rational in `[0, 1)`.
Python: `delay = min(base * 2 ** retry_count, max_delay);
jitter = delay * 0.2 * (random.random() * 2 - 1); return delay + jitter`. -/
def calculate_backoff_delay (base_retry_delay max_retry_delay : ℚ) (u : ℚ)
    (retry_count : Nat) : ℚ :=
  let delay := min (base_retry_delay * 2 ^ retry_count) max_retry_delay
  delay + delay * (1 / 5) * (u * 2 - 1)

/-- One outcome of the underlying transport for a single attempt:
either a response with a status code and an optional `Retry-After` header,
or a raised `requests.exceptions.HTTPError` carrying a response status,
or some other raised `RequestException`. -/
inductive TransportOutcome where
  | resp (status : Nat) (retryAfter : Option String)
  | exnHTTP (status : Nat)
  | exnOther
deriving DecidableEq

/-- Final outcome of `_make_request_with_retry`: a returned response
(with its status) or a propagated exception. -/
inductive RequestResult where
  | success (status : Nat)
  | failure
deriving DecidableEq

/-- Configuration fields of the client relevant to the retry loop. -/
structure RetryConfig where
  maxRetries : Nat
  base_retry_delay : ℚ
  max_retry_delay : ℚ

/-- Observable trace of one `_make_request_with_retry` call: the result,
the number of requests issued, and the list of sleeps performed (in order). -/
structure RetryTrace where
  result : RequestResult
  attempts : Nat
  sleeps : List ℚ
deriving DecidableEq

/-- Embedding of the `Retry-After` handling inside the 429 branch
(s2match.py lines 226-235): `retry_after = response.headers.get('Retry-After');
if retry_after: try: delay = max(delay, float(retry_after)) except ValueError: pass`.
`parseSeconds` models Python `float` applied to a string (`none` = `ValueError`). -/
def applyRetryAfter (parseSeconds : String → Option ℚ) (retryAfter : Option String)
    (delay : ℚ) : ℚ :=
  match retryAfter with
  | none => delay
  | some s =>
    if s = "" then delay
    else
      match parseSeconds s with
      | some q => max delay q
      | none => delay

/-- Loop body of `_make_request_with_retry` (s2match.py lines 207-274),
recursing on the remaining retry budget (`budget = max_retries - retry_count`,
so the Python guard `retry_count >= self.max_retries` is `budget = 0`).
`transport i` is the outcome of the `i`-th issued request (0-based);
`rand i` is the `random.random()` draw used by the backoff computation of
the retry decided after attempt `i`. -/
def makeRequestWithRetryAux (transport : Nat → TransportOutcome)
    (parseSeconds : String → Option ℚ) (rand : Nat → ℚ) (cfg : RetryConfig) :
    Nat → Nat → Nat → RetryTrace
  | budget, attemptIdx, retryCount =>
    match transport attemptIdx with
    | .resp status retryAfter =>
      if status = 429 then
        match budget with
        | 0 => ⟨.failure, attemptIdx + 1, []⟩
        | b + 1 =>
          let delay0 := calculate_backoff_delay cfg.base_retry_delay
            cfg.max_retry_delay (rand attemptIdx) retryCount
          let delay := applyRetryAfter parseSeconds retryAfter delay0
          let rest := makeRequestWithRetryAux transport parseSeconds rand cfg
            b (attemptIdx + 1) (retryCount + 1)
          ⟨rest.result, rest.attempts, delay :: rest.sleeps⟩
      else if 400 ≤ status ∧ status < 600 then
        ⟨.failure, attemptIdx + 1, []⟩
      else
        ⟨.success status, attemptIdx + 1, []⟩
    | .exnHTTP status =>
      match budget with
      | 0 => ⟨.failure, attemptIdx + 1, []⟩
      | b + 1 =>
        if status = 429 then
          makeRequestWithRetryAux transport parseSeconds rand cfg
            b (attemptIdx + 1) (retryCount + 1)
        else
          ⟨.failure, attemptIdx + 1, []⟩
    | .exnOther => ⟨.failure, attemptIdx + 1, []⟩

/-- Embedding of `_make_request_with_retry` (s2match.py lines 168-274):
run the loop starting with `retry_count = 0` and the full retry budget. -/
def make_request_with_retry (transport : Nat → TransportOutcome)
    (parseSeconds : String → Option ℚ) (rand : Nat → ℚ) (cfg : RetryConfig) :
    RetryTrace :=
  makeRequestWithRetryAux transport parseSeconds rand cfg cfg.maxRetries 0 0

lemma makeRequestWithRetryAux_persistent429 (transport : Nat → TransportOutcome)
    (parseSeconds : String → Option ℚ) (rand : Nat → ℚ) (cfg : RetryConfig)
    (h429 : ∀ i, ∃ ra, transport i = .resp 429 ra) :
    ∀ budget attemptIdx retryCount,
      (makeRequestWithRetryAux transport parseSeconds rand cfg
        budget attemptIdx retryCount).result = .failure ∧
      (makeRequestWithRetryAux transport parseSeconds rand cfg
        budget attemptIdx retryCount).attempts = attemptIdx + budget + 1 ∧
      (makeRequestWithRetryAux transport parseSeconds rand cfg
        budget attemptIdx retryCount).sleeps.length = budget := by
  intro budget
  induction budget with
  | zero =>
    intro attemptIdx retryCount
    obtain ⟨ra, hra⟩ := h429 attemptIdx
    simp [makeRequestWithRetryAux, hra]
  | succ b ih =>
    intro attemptIdx retryCount
    obtain ⟨ra, hra⟩ := h429 attemptIdx
    obtain ⟨ih1, ih2, ih3⟩ := ih (attemptIdx + 1) (retryCount + 1)
    refine ⟨?_, ?_, ?_⟩
    · rw [makeRequestWithRetryAux, hra]; simp [ih1]
    · rw [makeRequestWithRetryAux, hra]; simp [ih2]; try omega
    · rw [makeRequestWithRetryAux, hra]; simp [ih3]

lemma makeRequestWithRetryAux_persistentExn429 (transport : Nat → TransportOutcome)
    (parseSeconds : String → Option ℚ) (rand : Nat → ℚ) (cfg : RetryConfig)
    (h429 : ∀ i, transport i = .exnHTTP 429) :
    ∀ budget attemptIdx retryCount,
      makeRequestWithRetryAux transport parseSeconds rand cfg
        budget attemptIdx retryCount = ⟨.failure, attemptIdx + budget + 1, []⟩ := by
  intro budget
  induction budget with
  | zero =>
    intro attemptIdx retryCount
    simp [makeRequestWithRetryAux, h429 attemptIdx]
  | succ b ih =>
    intro attemptIdx retryCount
    rw [makeRequestWithRetryAux, h429 attemptIdx]
    simp only [ih (attemptIdx + 1) (retryCount + 1)]
    have : attemptIdx + 1 + b + 1 = attemptIdx + (b + 1) + 1 := by omega
    simp [this]

/-- C3 -- For a request whose every attempt receives HTTP 429, the executor
with `max_retries = m` issues exactly `m + 1` total attempts (the initial
attempt plus `m` retries) before the error propagates; in particular with
`max_retries = 2` exactly 3 attempts are made, and with `max_retries = 0`
the first 429 is immediately fatal with no retry attempted. -/
theorem persistent_429_makes_maxRetries_plus_one_attempts
    (headers : Nat → Option String) (parseSeconds : String → Option ℚ)
    (rand : Nat → ℚ) (cfg : RetryConfig) :
    (make_request_with_retry (fun i => .resp 429 (headers i))
        parseSeconds rand cfg).result = .failure ∧
    (make_request_with_retry (fun i => .resp 429 (headers i))
        parseSeconds rand cfg).attempts = cfg.maxRetries + 1 := by
  obtain ⟨h1, h2, _⟩ := makeRequestWithRetryAux_persistent429
    (fun i => .resp 429 (headers i)) parseSeconds rand cfg
    (fun i => ⟨headers i, rfl⟩) cfg.maxRetries 0 0
  exact ⟨h1, by simpa [make_request_with_retry] using h2⟩

/-- C4 -- For every retry index `n` (0-based) the computed backoff delay lies
within `[min(base*2^n, max_delay)*0.8, min(base*2^n, max_delay)*1.2]`; in
particular it never exceeds `max_delay*1.2`.  `u` is the `random.random()`
draw, in `[0, 1)`; configured delays are nonnegative. -/
theorem backoff_delay_in_jitter_band (base maxd u : ℚ) (n : Nat)
    (hb : 0 ≤ base) (hm : 0 ≤ maxd) (hu0 : 0 ≤ u) (hu1 : u < 1) :
    min (base * 2 ^ n) maxd * (4 / 5) ≤ calculate_backoff_delay base maxd u n ∧
    calculate_backoff_delay base maxd u n ≤ min (base * 2 ^ n) maxd * (6 / 5) ∧
    calculate_backoff_delay base maxd u n ≤ maxd * (6 / 5) := by
  have hd0 : (0 : ℚ) ≤ min (base * 2 ^ n) maxd :=
    le_min (by positivity) hm
  have hdm : min (base * 2 ^ n) maxd ≤ maxd := min_le_right _ _
  unfold calculate_backoff_delay
  set d := min (base * 2 ^ n) maxd with hd
  refine ⟨by nlinarith, by nlinarith, by nlinarith⟩

/-- Closed witness for `backoff_delay_in_jitter_band` at
`base = 1, max_delay = 60, u = 1/2, n = 3`. -/
theorem backoff_delay_in_jitter_band_witness :
    min ((1 : ℚ) * 2 ^ 3) 60 * (4 / 5) ≤ calculate_backoff_delay 1 60 (1 / 2) 3 ∧
    calculate_backoff_delay 1 60 (1 / 2) 3 ≤ min ((1 : ℚ) * 2 ^ 3) 60 * (6 / 5) ∧
    calculate_backoff_delay 1 60 (1 / 2) 3 ≤ 60 * (6 / 5) :=
  backoff_delay_in_jitter_band 1 60 (1 / 2) 3 (by norm_num) (by norm_num)
    (by norm_num) (by norm_num)

/-- C5 -- When a 429 response carries a `Retry-After` header parseable as a
number of seconds, the sleep before the retry equals
`max(computed_backoff_delay, retry_after_seconds)`, so it is at least
`retry_after_seconds`; when the `Retry-After` value is not parseable as a
number (e.g. a date), it is ignored and the computed backoff delay is used. -/
theorem retry_after_header_respected (parseSeconds : String → Option ℚ)
    (rand : Nat → ℚ) (cfg : RetryConfig) (h : String) (m : Nat)
    (hne : h ≠ "") (hm : cfg.maxRetries = m + 1) :
    (∀ q, parseSeconds h = some q →
      (make_request_with_retry (fun _ => .resp 429 (some h))
          parseSeconds rand cfg).sleeps.head? =
        some (max (calculate_backoff_delay cfg.base_retry_delay
          cfg.max_retry_delay (rand 0) 0) q) ∧
      q ≤ max (calculate_backoff_delay cfg.base_retry_delay
          cfg.max_retry_delay (rand 0) 0) q) ∧
    (parseSeconds h = none →
      (make_request_with_retry (fun _ => .resp 429 (some h))
          parseSeconds rand cfg).sleeps.head? =
        some (calculate_backoff_delay cfg.base_retry_delay
          cfg.max_retry_delay (rand 0) 0)) := by
  constructor
  · intro q hq
    refine ⟨?_, le_max_right _ _⟩
    rw [make_request_with_retry, hm, makeRequestWithRetryAux]
    simp [applyRetryAfter, hne, hq]
  · intro hq
    rw [make_request_with_retry, hm, makeRequestWithRetryAux]
    simp [applyRetryAfter, hne, hq]

/-- Closed witness for `retry_after_header_respected`: with
`Retry-After: "30"` parsed as 30 seconds, one available retry, and a
computed backoff of `4/5` (base 1, cap 60, `u = 0`), the sleep is
`max (4/5) 30`. -/
theorem retry_after_header_respected_witness :
    (make_request_with_retry (fun _ => .resp 429 (some "30"))
        (fun s => if s = "30" then some 30 else none) (fun _ => 0)
        ⟨1, 1, 60⟩).sleeps.head? =
      some (max (calculate_backoff_delay 1 60 0 0) 30) :=
  ((retry_after_header_respected (fun s => if s = "30" then some 30 else none)
    (fun _ => 0) ⟨1, 1, 60⟩ "30" 0 (by decide) rfl).1 30 (by simp)).1

/-- C10 -- In the executor's exception path, whenever the transport raises an
`HTTPError` whose response status is 429 and the retry budget is not yet
exhausted, the request is reissued immediately: the retry counter is
incremented but no backoff delay is computed, no sleep occurs, and the
`Retry-After` header is not consulted -- unlike the status-code path, which
sleeps before every retry.  Formally: a transport that always raises
`HTTPError(429)` produces `maxRetries + 1` attempts with an empty sleep list,
while a transport that always returns a 429 response sleeps once per retry. -/
theorem exception_path_retries_without_sleeping
    (parseSeconds : String → Option ℚ) (rand : Nat → ℚ) (cfg : RetryConfig) :
    make_request_with_retry (fun _ => .exnHTTP 429) parseSeconds rand cfg =
      ⟨.failure, cfg.maxRetries + 1, []⟩ ∧
    (make_request_with_retry (fun _ => .resp 429 none)
        parseSeconds rand cfg).sleeps.length = cfg.maxRetries := by
  constructor
  · have := makeRequestWithRetryAux_persistentExn429 (fun _ => .exnHTTP 429)
      parseSeconds rand cfg (fun _ => rfl) cfg.maxRetries 0 0
    simpa [make_request_with_retry] using this
  · have := makeRequestWithRetryAux_persistent429 (fun _ => .resp 429 none)
      parseSeconds rand cfg (fun _ => ⟨none, rfl⟩) cfg.maxRetries 0 0
    simpa [make_request_with_retry] using this.2.2

/-! ## Player-record transformer (s2match.py, `transform_player`) -/

/-- A custom-data value as the transformer observes it: a string, or any
non-string JSON value, of which the code only ever inspects truthiness. -/
inductive CustomVal where
  | str (s : String)
  | other (truthy : Bool)
deriving DecidableEq

/-- A parsed JSON value (result of `json.loads`); the transformer never
inspects parsed values, it only stores them (`{}` on failure). -/
inductive Json where
  | jnull
  | jbool (b : Bool)
  | jnum (q : ℚ)
  | jstr (s : String)
  | jarr (elems : List Json)
  | jobj (fields : List (String × Json))

/-- A raw player record as consumed by `transform_player`: the directly
copied fields plus the loosely-typed `custom_data` bag. -/
structure PlayerData where
  player_uuid : Option String := none
  team_id : Option Int := none
  placement : Option Int := none
  joined_match_timestamp : Option String := none
  left_match_timestamp : Option String := none
  duration_seconds : Option Int := none
  custom_data : List (String × CustomVal) := []

/-- The normalized player record produced by `transform_player`. -/
structure TransformedPlayer where
  player_uuid : Option String
  team_id : Option Int
  placement : Option Int
  joined_match_timestamp : Option String
  left_match_timestamp : Option String
  duration_seconds : Option Int
  god_name : String
  basic_stats : List (String × Int)
  assigned_role : Option CustomVal
  played_role : Option CustomVal
  items : Json
  role_preferences : Json
  damage_breakdown : List (String × List (String × Int))

/-- Python `str.startswith`, as a check on the character sequences. -/
def charsPrefixOf : List Char → List Char → Bool
  | [], _ => true
  | _ :: _, [] => false
  | c :: cs, d :: ds => c == d && charsPrefixOf cs ds

/-- Python `s.startswith(pre)`. -/
def strStartsWith (s pre : String) : Bool :=
  charsPrefixOf pre.toList s.toList

/-- Helper for `splitDot`: split a character list at every `'.'`,
accumulating the current (reversed) segment. -/
def splitDotAux : List Char → List Char → List String
  | [], cur => [String.mk cur.reverse]
  | c :: cs, cur =>
    if c == '.' then String.mk cur.reverse :: splitDotAux cs []
    else splitDotAux cs (c :: cur)

/-- Python `s.split(".")`. -/
def splitDot (s : String) : List String :=
  splitDotAux s.toList []

/-- Python `".".join(parts)`. -/
def joinDot : List String → String
  | [] => ""
  | [x] => x
  | x :: y :: rest => x ++ "." ++ joinDot (y :: rest)

/-- Classification of a character for Python's digit handling, an oracle
standing for the Unicode character database: a decimal digit (category Nd,
e.g. `'7'` or `'٥'`) carries its decimal value, is accepted by `str.isdigit`
and parsed by `int()`; a digit that is not decimal (e.g. `'²'`) is accepted
by `str.isdigit` but makes `int()` raise `ValueError`; everything else fails
`str.isdigit`. -/
inductive PyCharClass where
  | decimal (value : Nat)
  | digitNonDecimal
  | notDigit
deriving DecidableEq

/-- The ASCII fragment of the real classification (`'0'`-`'9'` are decimal
digits); used to ground concrete witnesses, while the theorems quantify over
every classification. -/
def asciiCharClass (c : Char) : PyCharClass :=
  if c.isDigit then .decimal (c.toNat - 48) else .notDigit

/-- A slightly larger fragment of the real classification, enough for the
concrete records below: ASCII digits and `'٥'` (U+0665, Arabic-Indic five)
are decimal digits; `'²'` (U+00B2, superscript two) has the digit property
but no decimal value. -/
def unicodeSampleClass (c : Char) : PyCharClass :=
  if c.isDigit then .decimal (c.toNat - 48)
  else if c = '٥' then .decimal 5
  else if c = '²' then .digitNonDecimal
  else .notDigit

/-- Python `str.isdigit`: nonempty and every character has the digit
property (decimal or not). -/
def pyIsDigit (cls : Char → PyCharClass) (s : String) : Bool :=
  !s.toList.isEmpty &&
    s.toList.all (fun c =>
      match cls c with
      | .notDigit => false
      | _ => true)

/-- Base-10 accumulation of the decimal values of a character sequence;
`none` as soon as a character has no decimal value. -/
def pyIntAux (cls : Char → PyCharClass) : List Char → Nat → Option Nat
  | [], acc => some acc
  | c :: cs, acc =>
    match cls c with
    | .decimal v => pyIntAux cls cs (acc * 10 + v)
    | _ => none

/-- Python `int` applied to a string that already passed `str.isdigit`
(so no sign, whitespace or underscore handling arises): the base-10 value of
the characters' decimal values, or `ValueError` when some character is a
digit without a decimal value. -/
def pyInt (cls : Char → PyCharClass) (s : String) : Except String Int :=
  match pyIntAux cls s.toList 0 with
  | some n => .ok (n : Int)
  | none => .error "ValueError"

/-- A custom-data entry is safe for the `int()` calls of the transformer:
its value is not a string, or fails `str.isdigit`, or consists entirely of
decimal digits. -/
def digitSafe (cls : Char → PyCharClass) (e : String × CustomVal) : Bool :=
  match e.2 with
  | .str s => !(pyIsDigit cls s) || (pyIntAux cls s.toList 0).isSome
  | .other _ => true

/-- The fixed enumerated list of basic-stat keys
(s2match.py lines 634-639). -/
def basic_stats_keys : List String :=
  ["Kills", "Deaths", "Assists", "TowerKills", "PhoenixKills", "TitanKills",
   "TotalDamage", "TotalNPCDamage", "TotalDamageTaken", "TotalDamageMitigated",
   "TotalGoldEarned", "TotalXPEarned", "TotalStructureDamage", "TotalMinionDamage",
   "TotalAllyHealing", "TotalSelfHealing", "TotalWardsPlaced", "PlayerLevel"]

/-- Embedding of one basic-stat coercion (s2match.py line 643):
`int(raw_val) if (raw_val and isinstance(raw_val, str) and raw_val.isdigit())
else 0`.  The `int()` call can raise `ValueError` on an isdigit-true string
with a non-decimal digit character. -/
def basicStatValueE (cls : Char → PyCharClass) (v : Option CustomVal) :
    Except String Int :=
  match v with
  | some (.str s) => if pyIsDigit cls s then pyInt cls s else .ok 0
  | some (.other _) => .ok 0
  | none => .ok 0

/-- The basic-stats loop (s2match.py lines 640-644): coerce each enumerated
key in order, propagating the first `ValueError`. -/
def buildBasicStats (cls : Char → PyCharClass) (cd : List (String × CustomVal)) :
    List String → Except String (List (String × Int))
  | [] => .ok []
  | k :: ks =>
    match basicStatValueE cls (List.lookup k cd) with
    | .error e => .error e
    | .ok n =>
      match buildBasicStats cls cd ks with
      | .error e => .error e
      | .ok rest => .ok ((k, n) :: rest)

/-- Python `s.split(".", 1)[1]`: everything after the first dot
(callers guard that `s` contains a dot). -/
def afterFirstDot (s : String) : String :=
  match splitDot s with
  | [] => ""
  | [_] => ""
  | _ :: rest => joinDot rest

/-- Embedding of the god-name extraction (s2match.py lines 626-631).
A truthy non-string `CharacterChoice` makes Python evaluate
`character_choice.startswith`, raising an uncaught `AttributeError`. -/
def extractGodName (cd : List (String × CustomVal)) : Except String String :=
  match List.lookup "CharacterChoice" cd with
  | some (.str s) =>
    if s ≠ "" ∧ strStartsWith s "Gods." then .ok (afterFirstDot s)
    else if s = "" then .ok "UnknownGod"
    else .ok s
  | some (.other true) => .error "AttributeError"
  | some (.other false) => .ok "UnknownGod"
  | none => .ok "UnknownGod"

/-- Embedding of the JSON sub-field handling (s2match.py lines 651-667):
attempt `json.loads` on a truthy value, substituting `{}` on absence, on a
falsy value, on `JSONDecodeError` (`parseJson` returns `none`), or on the
`TypeError` raised for non-string values. -/
def parseJsonField (parseJson : String → Option Json) (v : Option CustomVal) : Json :=
  match v with
  | some (.str s) =>
    if s ≠ "" then
      match parseJson s with
      | some j => j
      | none => .jobj []
    else .jobj []
  | some (.other _) => .jobj []
  | none => .jobj []

/-- Routing rule of the damage-breakdown loop (s2match.py lines 677-699):
which bucket and stat key a digit-valued custom-data key contributes to,
or `none` when the `Gods.` branch drops it (fewer than three segments). -/
def routeKey (key : String) : Option (String × String) :=
  if strStartsWith key "Gods." then
    match splitDot key with
    | _ :: god :: rest =>
      match rest with
      | [] => none
      | _ => some (god, joinDot rest)
    | _ => none
  else if strStartsWith key "Items." then
    match splitDot key with
    | [_, item, stat] => some (item, stat)
    | _ :: item :: _ => some (item, "value")
    | _ => some ("UnknownItem", "value")
  else if strStartsWith key "NPC." || strStartsWith key "Ability.Type.Item" then
    some ("Misc", key)
  else
    some ("misc_stats", key)

/-- Python dict assignment `entries[sk] = v` on an insertion-ordered
association list. -/
def setEntry (entries : List (String × Int)) (sk : String) (v : Int) :
    List (String × Int) :=
  if entries.any (fun e => e.1 == sk) then
    entries.map (fun e => if e.1 == sk then (e.1, v) else e)
  else entries ++ [(sk, v)]

/-- Python `damage_breakdown.setdefault(b, {}); damage_breakdown[b][sk] = v`
on an insertion-ordered association list of buckets. -/
def insertNested (acc : List (String × List (String × Int))) (b sk : String)
    (v : Int) : List (String × List (String × Int)) :=
  if acc.any (fun e => e.1 == b) then
    acc.map (fun e => if e.1 == b then (e.1, setEntry e.2 sk v) else e)
  else acc ++ [(b, setEntry [] sk v)]

/-- One iteration of the damage-breakdown loop (s2match.py lines 671-699):
skip non-strings and non-isdigit strings, route by the key, and only then
call `int(raw_val)` (so a dropped two-segment `Gods.*` key never reaches
`int()`, while a routed key can raise `ValueError`). -/
def breakdownStepE (cls : Char → PyCharClass)
    (acc : List (String × List (String × Int))) (entry : String × CustomVal) :
    Except String (List (String × List (String × Int))) :=
  match entry.2 with
  | .str s =>
    if pyIsDigit cls s then
      match routeKey entry.1 with
      | some (b, sk) =>
        match pyInt cls s with
        | .error e => .error e
        | .ok n => .ok (insertNested acc b sk n)
      | none => .ok acc
    else .ok acc
  | .other _ => .ok acc

/-- The damage-breakdown loop over the custom-data items in insertion order,
propagating the first `ValueError`. -/
def foldBreakdownE (cls : Char → PyCharClass) :
    List (String × CustomVal) → List (String × List (String × Int)) →
    Except String (List (String × List (String × Int)))
  | [], acc => .ok acc
  | e :: rest, acc =>
    match breakdownStepE cls acc e with
    | .error err => .error err
    | .ok acc' => foldBreakdownE cls rest acc'

/-- The full damage-breakdown construction (s2match.py lines 670-701). -/
def buildDamageBreakdownE (cls : Char → PyCharClass)
    (cd : List (String × CustomVal)) :
    Except String (List (String × List (String × Int))) :=
  foldBreakdownE cls cd []

/-- Embedding of `transform_player` (s2match.py lines 600-703).
`cls` models the Unicode character classification behind `str.isdigit` and
`int()`; `parseJson` models `json.loads` (`none` = `JSONDecodeError`).  The
uncaught exceptions, surfaced as `.error` in source order, are the
`AttributeError` on a truthy non-string `CharacterChoice` (line 627), then a
`ValueError` from the basic-stats loop (line 643), then a `ValueError` from
the damage-breakdown loop (lines 683-699). -/
def transform_player (cls : Char → PyCharClass)
    (parseJson : String → Option Json) (p : PlayerData) :
    Except String TransformedPlayer :=
  let cd := p.custom_data
  match extractGodName cd with
  | .error e => .error e
  | .ok god_name =>
    match buildBasicStats cls cd basic_stats_keys with
    | .error e => .error e
    | .ok bs =>
      match buildDamageBreakdownE cls cd with
      | .error e => .error e
      | .ok bd =>
        .ok { player_uuid := p.player_uuid
              team_id := p.team_id
              placement := p.placement
              joined_match_timestamp := p.joined_match_timestamp
              left_match_timestamp := p.left_match_timestamp
              duration_seconds := p.duration_seconds
              god_name := god_name
              basic_stats := bs
              assigned_role := List.lookup "AssignedRole" cd
              played_role := List.lookup "PlayedRole" cd
              items := parseJsonField parseJson (List.lookup "Items" cd)
              role_preferences :=
                parseJsonField parseJson (List.lookup "RolePreferences" cd)
              damage_breakdown := bd }

/-! ### Lemmas about `transform_player` -/

/-- `damage_breakdown` membership: bucket `b` exists and holds stat key `sk`. -/
def hasEntry (acc : List (String × List (String × Int))) (b sk : String) : Bool :=
  match List.lookup b acc with
  | some entries => entries.any (fun e => e.1 == sk)
  | none => false

lemma hasEntry_eq_true_iff (acc : List (String × List (String × Int)))
    (b sk : String) :
    hasEntry acc b sk = true ↔
      ∃ es, List.lookup b acc = some es ∧ es.any (fun e => e.1 == sk) = true := by
  unfold hasEntry
  cases h : List.lookup b acc <;> simp

lemma setEntry_any_self (entries : List (String × Int)) (sk : String) (v : Int) :
    (setEntry entries sk v).any (fun e => e.1 == sk) = true := by
  unfold setEntry
  split
  · rename_i h
    rw [List.any_eq_true] at h ⊢
    obtain ⟨e, he, hek⟩ := h
    exact ⟨(e.1, v), List.mem_map.mpr ⟨e, he, by simp [hek]⟩, by simpa using hek⟩
  · rw [List.any_eq_true]
    exact ⟨(sk, v), by simp, by simp⟩

lemma setEntry_any_mono (entries : List (String × Int)) (sk sk' : String) (v : Int)
    (h : entries.any (fun e => e.1 == sk') = true) :
    (setEntry entries sk v).any (fun e => e.1 == sk') = true := by
  unfold setEntry
  split
  · rw [List.any_eq_true] at h ⊢
    obtain ⟨e, he, hek⟩ := h
    by_cases hsk : (e.1 == sk) = true
    · exact ⟨(e.1, v), List.mem_map.mpr ⟨e, he, by simp [hsk]⟩, hek⟩
    · exact ⟨e, List.mem_map.mpr ⟨e, he, by simp [hsk]⟩, hek⟩
  · rw [List.any_eq_true] at h ⊢
    obtain ⟨e, he, hek⟩ := h
    exact ⟨e, by simp [he], hek⟩

lemma lookup_map_cond (acc : List (String × List (String × Int))) (b : String)
    (g : String × List (String × Int) → List (String × Int)) :
    List.lookup b (acc.map fun e => if e.1 == b then (e.1, g e) else e) =
      (List.lookup b acc).map (fun es => g (b, es)) := by
  induction acc with
  | nil => rfl
  | cons e rest ih =>
    obtain ⟨k, v⟩ := e
    by_cases hk : k = b
    · subst hk
      simp [List.lookup_cons]
    · simp only [List.map_cons, show (k == b) = false from by simpa using hk,
        Bool.false_eq_true, if_false]
      simpa [List.lookup_cons, beq_false_of_ne (Ne.symm hk)] using ih

lemma lookup_map_cond_ne (acc : List (String × List (String × Int)))
    (b b' : String) (g : String × List (String × Int) → List (String × Int))
    (hne : b' ≠ b) :
    List.lookup b' (acc.map fun e => if e.1 == b then (e.1, g e) else e) =
      List.lookup b' acc := by
  induction acc with
  | nil => rfl
  | cons e rest ih =>
    obtain ⟨k, v⟩ := e
    by_cases hk : k = b
    · subst hk
      simp only [List.map_cons, beq_self_eq_true, if_true]
      simpa [List.lookup_cons, beq_false_of_ne hne] using ih
    · simp only [List.map_cons, show (k == b) = false from by simpa using hk,
        Bool.false_eq_true, if_false]
      by_cases hb' : b' = k
      · subst hb'; simp [List.lookup_cons]
      · simpa [List.lookup_cons, beq_false_of_ne hb'] using ih

lemma any_key_lookup_isSome (acc : List (String × List (String × Int)))
    (b : String) (h : acc.any (fun e => e.1 == b) = true) :
    ∃ es, List.lookup b acc = some es := by
  induction acc with
  | nil => simp at h
  | cons e rest ih =>
    obtain ⟨k, v⟩ := e
    by_cases hk : b = k
    · subst hk; exact ⟨v, by simp [List.lookup_cons]⟩
    · rw [List.any_cons] at h
      simp only [show (k == b) = false from by simpa using (Ne.symm hk),
        Bool.false_or] at h
      obtain ⟨es, hes⟩ := ih h
      exact ⟨es, by simp [List.lookup_cons, beq_false_of_ne hk, hes]⟩

lemma lookup_append_fresh (acc : List (String × List (String × Int)))
    (b : String) (x : List (String × Int))
    (h : acc.any (fun e => e.1 == b) = false) :
    List.lookup b (acc ++ [(b, x)]) = some x := by
  induction acc with
  | nil => simp [List.lookup_cons]
  | cons e rest ih =>
    obtain ⟨k, v⟩ := e
    rw [List.any_cons] at h
    have h1 : (k == b) = false := (Bool.or_eq_false_iff.mp h).1
    have h2 : rest.any (fun e => e.1 == b) = false := (Bool.or_eq_false_iff.mp h).2
    have hne : b ≠ k := fun hc => by simp [hc] at h1
    rw [List.cons_append]
    simp [List.lookup_cons, beq_false_of_ne hne, ih h2]

lemma lookup_append_left_found (acc l : List (String × List (String × Int)))
    (b : String) (es : List (String × Int))
    (h : List.lookup b acc = some es) :
    List.lookup b (acc ++ l) = some es := by
  induction acc with
  | nil => simp [List.lookup] at h
  | cons e rest ih =>
    obtain ⟨k, v⟩ := e
    by_cases hb : b = k
    · subst hb
      simp only [List.lookup_cons, beq_self_eq_true] at h
      rw [List.cons_append]
      simpa [List.lookup_cons] using h
    · simp only [List.lookup_cons, beq_false_of_ne hb] at h
      rw [List.cons_append]
      simpa [List.lookup_cons, beq_false_of_ne hb] using ih h

lemma hasEntry_insertNested_self (acc : List (String × List (String × Int)))
    (b sk : String) (v : Int) :
    hasEntry (insertNested acc b sk v) b sk = true := by
  rw [hasEntry_eq_true_iff]
  unfold insertNested
  split
  · rename_i hany
    obtain ⟨es, hes⟩ := any_key_lookup_isSome acc b hany
    exact ⟨setEntry es sk v, by rw [lookup_map_cond, hes]; rfl,
      setEntry_any_self es sk v⟩
  · rename_i hany
    exact ⟨setEntry [] sk v,
      lookup_append_fresh acc b _ (Bool.eq_false_iff.mpr hany),
      setEntry_any_self [] sk v⟩

lemma hasEntry_insertNested_mono (acc : List (String × List (String × Int)))
    (b sk b' sk' : String) (v : Int) (h : hasEntry acc b' sk' = true) :
    hasEntry (insertNested acc b sk v) b' sk' = true := by
  rw [hasEntry_eq_true_iff] at h ⊢
  obtain ⟨es, hes, hany'⟩ := h
  unfold insertNested
  split
  · by_cases hbb : b' = b
    · subst hbb
      exact ⟨setEntry es sk v, by rw [lookup_map_cond, hes]; rfl,
        setEntry_any_mono es sk sk' v hany'⟩
    · exact ⟨es, by rw [lookup_map_cond_ne acc b b' _ hbb]; exact hes, hany'⟩
  · exact ⟨es, lookup_append_left_found acc _ b' es hes, hany'⟩

lemma hasEntry_breakdownStepE_mono (cls : Char → PyCharClass)
    (acc acc' : List (String × List (String × Int)))
    (entry : String × CustomVal) (b' sk' : String)
    (hstep : breakdownStepE cls acc entry = .ok acc')
    (h : hasEntry acc b' sk' = true) :
    hasEntry acc' b' sk' = true := by
  obtain ⟨k, v⟩ := entry
  cases v with
  | str s =>
    by_cases hd : pyIsDigit cls s = true
    · cases hr : routeKey k with
      | none =>
        simp only [breakdownStepE, hd, hr, if_true, Except.ok.injEq] at hstep
        rw [← hstep]; exact h
      | some pr =>
        obtain ⟨b, sk⟩ := pr
        cases hi : pyInt cls s with
        | error e => simp [breakdownStepE, hd, hr, hi] at hstep
        | ok n =>
          simp only [breakdownStepE, hd, hr, hi, if_true,
            Except.ok.injEq] at hstep
          rw [← hstep]
          exact hasEntry_insertNested_mono acc b sk b' sk' n h
    · have hd' : pyIsDigit cls s = false := Bool.eq_false_iff.mpr hd
      simp only [breakdownStepE, hd', Bool.false_eq_true, if_false,
        Except.ok.injEq] at hstep
      rw [← hstep]; exact h
  | other tr =>
    simp only [breakdownStepE, Except.ok.injEq] at hstep
    rw [← hstep]; exact h

lemma hasEntry_foldE_mono (cls : Char → PyCharClass)
    (cd : List (String × CustomVal)) (b' sk' : String) :
    ∀ acc bd, foldBreakdownE cls cd acc = .ok bd →
      hasEntry acc b' sk' = true → hasEntry bd b' sk' = true := by
  induction cd with
  | nil =>
    intro acc bd hf h
    simp only [foldBreakdownE, Except.ok.injEq] at hf
    rw [← hf]; exact h
  | cons e rest ih =>
    intro acc bd hf h
    simp only [foldBreakdownE] at hf
    cases hstep : breakdownStepE cls acc e with
    | error err => rw [hstep] at hf; simp at hf
    | ok acc' =>
      rw [hstep] at hf
      exact ih acc' bd hf (hasEntry_breakdownStepE_mono cls acc acc' e b' sk'
        hstep h)

lemma hasEntry_foldE_of_mem (cls : Char → PyCharClass)
    (cd : List (String × CustomVal)) (k s b sk : String)
    (hd : pyIsDigit cls s = true) (hr : routeKey k = some (b, sk)) :
    ∀ acc bd, (k, CustomVal.str s) ∈ cd →
      foldBreakdownE cls cd acc = .ok bd →
      hasEntry bd b sk = true := by
  induction cd with
  | nil => intro acc bd hmem _; cases hmem
  | cons x rest ih =>
    intro acc bd hmem hf
    simp only [foldBreakdownE] at hf
    cases hstep : breakdownStepE cls acc x with
    | error err => rw [hstep] at hf; simp at hf
    | ok acc' =>
      rw [hstep] at hf
      rcases List.mem_cons.mp hmem with hx | hx
      · rw [← hx] at hstep
        simp only [breakdownStepE, hd, hr, if_true] at hstep
        cases hi : pyInt cls s with
        | error e => rw [hi] at hstep; simp at hstep
        | ok n =>
          rw [hi] at hstep
          simp only [Except.ok.injEq] at hstep
          rw [← hstep] at hf
          exact hasEntry_foldE_mono cls rest b sk _ bd hf
            (hasEntry_insertNested_self acc b sk n)
      · exact ih acc' bd hx hf

lemma routeKey_none_characterized (k : String) (h : routeKey k = none) :
    strStartsWith k "Gods." = true ∧ (splitDot k).length ≤ 2 := by
  unfold routeKey at h
  by_cases hg : strStartsWith k "Gods." = true
  · refine ⟨hg, ?_⟩
    rw [if_pos hg] at h
    rcases hsp : splitDot k with _ | ⟨a, rest⟩
    · norm_num
    · cases rest with
      | nil => norm_num
      | cons c rest2 =>
        cases rest2 with
        | nil => norm_num
        | cons d rest3 => rw [hsp] at h; simp at h
  · rw [if_neg hg] at h
    by_cases hi : strStartsWith k "Items." = true
    · rw [if_pos hi] at h
      rcases hsp : splitDot k with _ | ⟨a, _ | ⟨c, _ | ⟨d, rest⟩⟩⟩
      · rw [hsp] at h; simp at h
      · rw [hsp] at h; simp at h
      · rw [hsp] at h; simp at h
      · rw [hsp] at h; cases rest <;> simp at h
    · rw [if_neg hi] at h
      by_cases hn :
          (strStartsWith k "NPC." || strStartsWith k "Ability.Type.Item") = true
      · rw [if_pos hn] at h; simp at h
      · rw [if_neg hn] at h; simp at h

lemma transform_player_ok_parts (cls : Char → PyCharClass)
    (jp : String → Option Json) (p : PlayerData) (t : TransformedPlayer)
    (ht : transform_player cls jp p = .ok t) :
    buildBasicStats cls p.custom_data basic_stats_keys = .ok t.basic_stats ∧
    buildDamageBreakdownE cls p.custom_data = .ok t.damage_breakdown ∧
    t.items = parseJsonField jp (List.lookup "Items" p.custom_data) := by
  cases hg : extractGodName p.custom_data with
  | error e => simp [transform_player, hg] at ht
  | ok g =>
    cases hbs : buildBasicStats cls p.custom_data basic_stats_keys with
    | error e => simp [transform_player, hg, hbs] at ht
    | ok bs =>
      cases hbd : buildDamageBreakdownE cls p.custom_data with
      | error e => simp [transform_player, hg, hbs, hbd] at ht
      | ok bd =>
        simp only [transform_player, hg, hbs, hbd] at ht
        rw [Except.ok.injEq] at ht
        subst ht
        exact ⟨rfl, rfl, rfl⟩

lemma buildBasicStats_lookup (cls : Char → PyCharClass)
    (cd : List (String × CustomVal)) :
    ∀ (keys : List String) (bs : List (String × Int)),
      buildBasicStats cls cd keys = .ok bs → ∀ k, k ∈ keys →
      ∃ n, basicStatValueE cls (List.lookup k cd) = .ok n ∧
        List.lookup k bs = some n := by
  intro keys
  induction keys with
  | nil => intro bs _ k hk; cases hk
  | cons k' ks ih =>
    intro bs hb k hk
    simp only [buildBasicStats] at hb
    cases hv : basicStatValueE cls (List.lookup k' cd) with
    | error e => rw [hv] at hb; simp at hb
    | ok n' =>
      rw [hv] at hb
      cases hrest : buildBasicStats cls cd ks with
      | error e => rw [hrest] at hb; simp at hb
      | ok rest =>
        rw [hrest] at hb
        simp only [Except.ok.injEq] at hb
        subst hb
        by_cases hke : k = k'
        · subst hke
          exact ⟨n', hv, by simp [List.lookup_cons]⟩
        · rcases List.mem_cons.mp hk with hkk | hkk
          · exact absurd hkk hke
          · obtain ⟨n, h1, h2⟩ := ih rest hrest k hkk
            refine ⟨n, h1, ?_⟩
            simp only [List.lookup_cons, beq_false_of_ne hke]
            exact h2

lemma basicStatValueE_error_eq (cls : Char → PyCharClass) (v : Option CustomVal)
    (e : String) (h : basicStatValueE cls v = .error e) : e = "ValueError" := by
  rcases v with _ | cv
  · simp [basicStatValueE] at h
  · cases cv with
    | str s =>
      by_cases hd : pyIsDigit cls s = true
      · simp only [basicStatValueE, hd, if_true] at h
        unfold pyInt at h
        cases hi : pyIntAux cls s.toList 0 with
        | some n => rw [hi] at h; simp at h
        | none =>
          rw [hi] at h
          simp only [Except.error.injEq] at h
          exact h.symm
      · have hd' : pyIsDigit cls s = false := Bool.eq_false_iff.mpr hd
        simp [basicStatValueE, hd'] at h
    | other b => simp [basicStatValueE] at h

lemma buildBasicStats_error_of_mem (cls : Char → PyCharClass)
    (cd : List (String × CustomVal)) :
    ∀ (keys : List String) (k : String), k ∈ keys →
      basicStatValueE cls (List.lookup k cd) = .error "ValueError" →
      buildBasicStats cls cd keys = .error "ValueError" := by
  intro keys
  induction keys with
  | nil => intro k hk _; cases hk
  | cons k' ks ih =>
    intro k hk he
    cases hv : basicStatValueE cls (List.lookup k' cd) with
    | error e =>
      have he' := basicStatValueE_error_eq cls _ e hv
      subst he'
      simp [buildBasicStats, hv]
    | ok n' =>
      rcases List.mem_cons.mp hk with hkk | hkk
      · subst hkk
        rw [hv] at he
        simp at he
      · simp [buildBasicStats, hv, ih k hkk he]

lemma lookup_mem_cd (cd : List (String × CustomVal)) (k : String)
    (v : CustomVal) (h : List.lookup k cd = some v) : (k, v) ∈ cd := by
  induction cd with
  | nil => simp [List.lookup] at h
  | cons e rest ih =>
    obtain ⟨k', v'⟩ := e
    by_cases hk : k = k'
    · subst hk
      simp only [List.lookup_cons, beq_self_eq_true, Option.some.injEq] at h
      rw [← h]
      exact List.mem_cons_self _ _
    · simp only [List.lookup_cons, beq_false_of_ne hk] at h
      exact List.mem_cons_of_mem _ (ih h)

lemma basicStatValueE_ok_of_safe (cls : Char → PyCharClass)
    (cd : List (String × CustomVal))
    (hds : cd.all (digitSafe cls) = true) (k : String) :
    ∃ n, basicStatValueE cls (List.lookup k cd) = .ok n := by
  cases hv : List.lookup k cd with
  | none => exact ⟨0, rfl⟩
  | some cv =>
    cases cv with
    | other b => exact ⟨0, rfl⟩
    | str s =>
      by_cases hd : pyIsDigit cls s = true
      · have hmem := lookup_mem_cd cd k (.str s) hv
        have hsafe := List.all_eq_true.mp hds _ hmem
        simp only [digitSafe, hd, Bool.not_true, Bool.false_or] at hsafe
        obtain ⟨n, hn⟩ := Option.isSome_iff_exists.mp hsafe
        refine ⟨(n : Int), ?_⟩
        simp only [basicStatValueE, hd, if_true]
        unfold pyInt
        rw [hn]
      · have hd' : pyIsDigit cls s = false := Bool.eq_false_iff.mpr hd
        exact ⟨0, by simp [basicStatValueE, hd']⟩

lemma buildBasicStats_ok_of_safe (cls : Char → PyCharClass)
    (cd : List (String × CustomVal)) (hds : cd.all (digitSafe cls) = true) :
    ∀ keys : List String, ∃ bs, buildBasicStats cls cd keys = .ok bs := by
  intro keys
  induction keys with
  | nil => exact ⟨[], rfl⟩
  | cons k ks ih =>
    obtain ⟨n, hn⟩ := basicStatValueE_ok_of_safe cls cd hds k
    obtain ⟨bs, hbs⟩ := ih
    exact ⟨(k, n) :: bs, by simp [buildBasicStats, hn, hbs]⟩

lemma foldBreakdownE_ok_of_safe (cls : Char → PyCharClass) :
    ∀ cd : List (String × CustomVal), cd.all (digitSafe cls) = true →
      ∀ acc, ∃ bd, foldBreakdownE cls cd acc = .ok bd := by
  intro cd
  induction cd with
  | nil => intro _ acc; exact ⟨acc, rfl⟩
  | cons e rest ih =>
    intro hds acc
    rw [List.all_cons, Bool.and_eq_true] at hds
    obtain ⟨hde, hdr⟩ := hds
    obtain ⟨k, v⟩ := e
    have hstep : ∃ acc', breakdownStepE cls acc (k, v) = .ok acc' := by
      cases v with
      | other b => exact ⟨acc, rfl⟩
      | str s =>
        by_cases hd : pyIsDigit cls s = true
        · cases hr : routeKey k with
          | none => exact ⟨acc, by simp [breakdownStepE, hd, hr]⟩
          | some pr =>
            obtain ⟨b, sk⟩ := pr
            simp only [digitSafe, hd, Bool.not_true, Bool.false_or] at hde
            obtain ⟨n, hn⟩ := Option.isSome_iff_exists.mp hde
            refine ⟨insertNested acc b sk (n : Int), ?_⟩
            simp only [breakdownStepE, hd, hr, if_true]
            unfold pyInt
            rw [hn]
        · have hd' : pyIsDigit cls s = false := Bool.eq_false_iff.mpr hd
          exact ⟨acc, by simp [breakdownStepE, hd']⟩
    obtain ⟨acc', hacc⟩ := hstep
    obtain ⟨bd, hbd⟩ := ih hdr acc'
    exact ⟨bd, by simp [foldBreakdownE, hacc, hbd]⟩

lemma extractGodName_ok_of_safe (cd : List (String × CustomVal))
    (hcc : List.lookup "CharacterChoice" cd ≠ some (.other true)) :
    ∃ g, extractGodName cd = .ok g := by
  unfold extractGodName
  rcases hcd : List.lookup "CharacterChoice" cd with _ | cv
  · exact ⟨"UnknownGod", rfl⟩
  · cases cv with
    | str s =>
      by_cases h1 : s ≠ "" ∧ strStartsWith s "Gods." = true
      · exact ⟨afterFirstDot s, by dsimp only; rw [if_pos h1]⟩
      · by_cases h2 : s = ""
        · exact ⟨"UnknownGod", by dsimp only; rw [if_neg h1, if_pos h2]⟩
        · exact ⟨s, by dsimp only; rw [if_neg h1, if_neg h2]⟩
    | other b =>
      cases b with
      | true => exact absurd hcd hcc
      | false => exact ⟨"UnknownGod", rfl⟩

/-! ### Claims about `transform_player` -/

/-- A JSON parser oracle that fails on every input. -/
def jsonParseNone : String → Option Json := fun _ => none

/-- Concrete raw record whose only custom-data key is the two-segment
digit-valued key `"Gods.Anubis"`. -/
def pTwoSegmentGodsKey : PlayerData :=
  { custom_data := [("Gods.Anubis", .str "5")] }

/-- C1 counterexample -- the digit-valued key `"Gods.Anubis"` is not in the
basic-stats set, yet the normalized record's `damage_breakdown` is empty:
the key appears in no bucket at all, contradicting "appears in exactly one
bucket". -/
theorem twoSegment_gods_key_in_no_bucket :
    (transform_player asciiCharClass jsonParseNone
      pTwoSegmentGodsKey).toOption.map
      TransformedPlayer.damage_breakdown = some [] ∧
    pyIsDigit asciiCharClass "5" = true ∧
    basic_stats_keys.contains "Gods.Anubis" = false := by
  refine ⟨by decide, by decide, by decide⟩

/-- C1 (amended) -- Whenever `transform_player` produces a normalized record,
every key of the enumerated basic-stats set is present in its `basic_stats`
with the integer value the coercion produced (never null); every custom-data
key whose value passes `str.isdigit` and that the routing function assigns a
bucket lands in exactly that one bucket of `damage_breakdown` (the routing
function is deterministic, so the bucket is unique); the only keys the
routing drops are `Gods.`-prefixed keys with fewer than three dot-segments. -/
theorem basic_stats_total_and_breakdown_routing :
    (∀ (cls : Char → PyCharClass) (jp : String → Option Json) (p : PlayerData)
      (t : TransformedPlayer),
      transform_player cls jp p = .ok t → ∀ k, k ∈ basic_stats_keys →
      ∃ n : Int, basicStatValueE cls (List.lookup k p.custom_data) = .ok n ∧
        List.lookup k t.basic_stats = some n) ∧
    (∀ (cls : Char → PyCharClass) (jp : String → Option Json) (p : PlayerData)
      (t : TransformedPlayer) (k s b sk : String),
      transform_player cls jp p = .ok t →
      (k, CustomVal.str s) ∈ p.custom_data → pyIsDigit cls s = true →
      routeKey k = some (b, sk) →
      hasEntry t.damage_breakdown b sk = true) ∧
    (∀ k : String, routeKey k = none →
      strStartsWith k "Gods." = true ∧ (splitDot k).length ≤ 2) := by
  refine ⟨?_, ?_, routeKey_none_characterized⟩
  · intro cls jp p t ht k hk
    exact buildBasicStats_lookup cls p.custom_data basic_stats_keys
      t.basic_stats (transform_player_ok_parts cls jp p t ht).1 k hk
  · intro cls jp p t k s b sk ht hmem hd hr
    exact hasEntry_foldE_of_mem cls p.custom_data k s b sk hd hr []
      t.damage_breakdown hmem (transform_player_ok_parts cls jp p t ht).2.1

/-- Concrete raw record exercising both a basic stat and a routed
breakdown key. -/
def pWitnessRecord : PlayerData :=
  { custom_data :=
      [("Kills", .str "7"),
       ("Gods.Anubis.TotalDamage", .str "42"),
       ("CharacterChoice", .str "Gods.Anubis")] }

/-- The normalized record of `pWitnessRecord`. -/
def tWitnessRecord : TransformedPlayer :=
  (transform_player asciiCharClass jsonParseNone pWitnessRecord).toOption.getD
    ⟨none, none, none, none, none, none, "", [], none, none,
     .jobj [], .jobj [], []⟩

/-- Closed witness for `basic_stats_total_and_breakdown_routing`:
on `pWitnessRecord`, the stat `"Kills"` is present (with value 7) and the
key `"Gods.Anubis.TotalDamage"` landed in bucket `"Anubis"`. -/
theorem basic_stats_total_and_breakdown_routing_witness :
    List.lookup "Kills" tWitnessRecord.basic_stats = some 7 ∧
    hasEntry tWitnessRecord.damage_breakdown "Anubis" "TotalDamage" = true := by
  have ht : transform_player asciiCharClass jsonParseNone pWitnessRecord =
      .ok tWitnessRecord := rfl
  constructor
  · obtain ⟨n, hn1, hn2⟩ := basic_stats_total_and_breakdown_routing.1
      asciiCharClass jsonParseNone pWitnessRecord tWitnessRecord ht "Kills"
      (by decide)
    have h7 : basicStatValueE asciiCharClass
        (List.lookup "Kills" pWitnessRecord.custom_data) = .ok 7 := rfl
    rw [hn1] at h7
    rw [Except.ok.injEq] at h7
    rw [← h7]
    exact hn2
  · exact basic_stats_total_and_breakdown_routing.2.1 asciiCharClass
      jsonParseNone pWitnessRecord tWitnessRecord "Gods.Anubis.TotalDamage"
      "42" "Anubis" "TotalDamage" ht (by decide) (by decide) (by decide)

/-- Error projection of a `transform_player` result. -/
def transformErr (r : Except String TransformedPlayer) : Option String :=
  match r with
  | .error e => some e
  | .ok _ => none

/-- Concrete raw record whose `"Kills"` value is the string `"²"`
(U+00B2): `str.isdigit` accepts it but `int()` cannot parse it. -/
def pSuperscriptKills : PlayerData :=
  { custom_data := [("Kills", .str "²")] }

/-- C6 counterexample -- `"²"` passes `str.isdigit`, yet `transform_player`
raises `ValueError` at `int("²")` (s2match.py line 643) instead of storing
an integer, so "a digit-only value is stored as its exact integer value and
every other value as 0" fails at this input. -/
theorem superscript_kills_raises_value_error :
    transformErr (transform_player unicodeSampleClass jsonParseNone
      pSuperscriptKills) = some "ValueError" ∧
    pyIsDigit unicodeSampleClass "²" = true := by
  refine ⟨by decide, by decide⟩

/-- C6 (amended) -- For every basic-stat key: a value that is a non-empty
string of decimal digits is stored as its exact integer value; an empty,
non-digit, absent, negative-sign-prefixed or non-string value is stored
as 0; and a value passing `str.isdigit` that contains a character without a
decimal value makes the call raise `ValueError` instead of storing
anything. -/
theorem basic_stat_digit_only_exact_else_zero :
    (∀ (cls : Char → PyCharClass) (jp : String → Option Json) (p : PlayerData)
      (t : TransformedPlayer) (k : String),
      transform_player cls jp p = .ok t → k ∈ basic_stats_keys →
      (∀ s, List.lookup k p.custom_data = some (.str s) →
        pyIsDigit cls s = true →
        ∃ n, pyInt cls s = .ok n ∧ List.lookup k t.basic_stats = some n) ∧
      (∀ s, List.lookup k p.custom_data = some (.str s) →
        pyIsDigit cls s = false → List.lookup k t.basic_stats = some 0) ∧
      (List.lookup k p.custom_data = none →
        List.lookup k t.basic_stats = some 0) ∧
      (∀ b, List.lookup k p.custom_data = some (.other b) →
        List.lookup k t.basic_stats = some 0)) ∧
    (∀ (cls : Char → PyCharClass) (jp : String → Option Json) (p : PlayerData)
      (k s : String),
      k ∈ basic_stats_keys →
      List.lookup k p.custom_data = some (.str s) →
      pyIsDigit cls s = true → pyInt cls s = .error "ValueError" →
      List.lookup "CharacterChoice" p.custom_data ≠ some (.other true) →
      transform_player cls jp p = .error "ValueError") := by
  constructor
  · intro cls jp p t k ht hk
    obtain ⟨n, hn1, hn2⟩ := buildBasicStats_lookup cls p.custom_data
      basic_stats_keys t.basic_stats
      (transform_player_ok_parts cls jp p t ht).1 k hk
    refine ⟨?_, ?_, ?_, ?_⟩
    · intro s hs hd
      rw [hs] at hn1
      simp only [basicStatValueE, hd, if_true] at hn1
      exact ⟨n, hn1, hn2⟩
    · intro s hs hd
      rw [hs] at hn1
      rw [show basicStatValueE cls (some (.str s)) = Except.ok 0 from
        by simp [basicStatValueE, hd]] at hn1
      rw [Except.ok.injEq] at hn1
      rw [← hn1] at hn2
      exact hn2
    · intro hs
      rw [hs] at hn1
      rw [show basicStatValueE cls none = Except.ok 0 from rfl] at hn1
      rw [Except.ok.injEq] at hn1
      rw [← hn1] at hn2
      exact hn2
    · intro b hs
      rw [hs] at hn1
      rw [show basicStatValueE cls (some (.other b)) = Except.ok 0 from
        rfl] at hn1
      rw [Except.ok.injEq] at hn1
      rw [← hn1] at hn2
      exact hn2
  · intro cls jp p k s hk hs hd hpe hcc
    obtain ⟨g, hg⟩ := extractGodName_ok_of_safe p.custom_data hcc
    have hbb : buildBasicStats cls p.custom_data basic_stats_keys =
        .error "ValueError" := by
      apply buildBasicStats_error_of_mem cls p.custom_data basic_stats_keys
        k hk
      rw [hs]
      simp [basicStatValueE, hd, hpe]
    simp [transform_player, hg, hbb]

/-- Closed witness for `basic_stat_digit_only_exact_else_zero`:
on `pWitnessRecord` the decimal string `"7"` under `"Kills"` is stored as
exactly 7, and the absent key `"Deaths"` is stored as 0. -/
theorem basic_stat_digit_only_exact_else_zero_witness :
    List.lookup "Kills" tWitnessRecord.basic_stats = some 7 ∧
    List.lookup "Deaths" tWitnessRecord.basic_stats = some 0 := by
  have ht : transform_player asciiCharClass jsonParseNone pWitnessRecord =
      .ok tWitnessRecord := rfl
  constructor
  · obtain ⟨n, hn1, hn2⟩ := (basic_stat_digit_only_exact_else_zero.1
      asciiCharClass jsonParseNone pWitnessRecord tWitnessRecord "Kills" ht
      (by decide)).1 "7" (by decide) (by decide)
    have h7 : pyInt asciiCharClass "7" = .ok 7 := rfl
    rw [hn1] at h7
    rw [Except.ok.injEq] at h7
    rw [← h7]
    exact hn2
  · exact (basic_stat_digit_only_exact_else_zero.1 asciiCharClass
      jsonParseNone pWitnessRecord tWitnessRecord "Deaths" ht
      (by decide)).2.2.1 rfl

/-- Concrete raw record whose `CharacterChoice` custom-data value is a
truthy non-string. -/
def pBadCharacterChoice : PlayerData :=
  { custom_data := [("CharacterChoice", .other true)] }

/-- C7 counterexample -- on a record whose `CharacterChoice` is a truthy
non-string value, `transform_player` raises `AttributeError`
(Python evaluates `character_choice.startswith("Gods.")` unguarded), so it
is not total over all raw records. -/
theorem transform_player_raises_on_truthy_nonstring_choice :
    transformErr (transform_player asciiCharClass jsonParseNone
      pBadCharacterChoice) = some "AttributeError" := by decide

/-- C7 (amended) -- `transform_player` returns a normalized record without
raising for every raw record whose `CharacterChoice` custom-data value is
not a truthy non-string and whose `str.isdigit`-accepted custom-data string
values consist entirely of decimal digits; in particular malformed JSON
sub-fields yield an empty object (never a propagated parse exception) and
non-digit numeric strings yield a default. -/
theorem transform_player_total_on_safe_records (cls : Char → PyCharClass)
    (jp : String → Option Json) (p : PlayerData)
    (hcc : List.lookup "CharacterChoice" p.custom_data ≠ some (.other true))
    (hds : p.custom_data.all (digitSafe cls) = true) :
    (transform_player cls jp p).toOption.isSome = true ∧
    (∀ t s, transform_player cls jp p = .ok t →
      List.lookup "Items" p.custom_data = some (.str s) → s ≠ "" →
      jp s = none → t.items = Json.jobj []) := by
  constructor
  · obtain ⟨g, hg⟩ := extractGodName_ok_of_safe p.custom_data hcc
    obtain ⟨bs, hbs⟩ := buildBasicStats_ok_of_safe cls p.custom_data hds
      basic_stats_keys
    obtain ⟨bd, hbd⟩ := foldBreakdownE_ok_of_safe cls p.custom_data hds []
    simp [transform_player, hg, hbs, buildDamageBreakdownE, hbd,
      Except.toOption]
  · intro t s ht hitems hs hjp
    rw [(transform_player_ok_parts cls jp p t ht).2.2, hitems]
    simp [parseJsonField, hs, hjp]

/-- Closed witness for `transform_player_total_on_safe_records`:
the record `pWitnessRecord` (string `CharacterChoice`, ASCII-decimal stat
strings) transforms without error. -/
theorem transform_player_total_witness :
    (transform_player asciiCharClass jsonParseNone
      pWitnessRecord).toOption.isSome = true :=
  (transform_player_total_on_safe_records asciiCharClass jsonParseNone
    pWitnessRecord (by decide) (by decide)).1

/-! ## Match filtering (s2match.py, `filter_matches`) -/

/-- The fields of a normalized match record consulted by `filter_matches`
and `calculate_player_performance`. -/
structure NormalizedMatch where
  god_name : Option String := none
  mode : Option String := none
  map : Option String := none
  match_start : Option String := none
  team_id : Option Int := none
  winning_team : Option Int := none
  played_role : Option String := none
  basic_stats : List (String × Int) := []
deriving DecidableEq

/-- Python `match.get("basic_stats", {}).get(k, d)`. -/
def statGetD (m : NormalizedMatch) (k : String) (d : Int) : Int :=
  (List.lookup k m.basic_stats).getD d

/-- The recognized filter criteria of `filter_matches`
(s2match.py lines 1213-1347); an unset key imposes no constraint. -/
structure MatchFilters where
  god_name : Option String := none
  mode : Option String := none
  map : Option String := none
  min_date : Option String := none
  max_date : Option String := none
  win_only : Option Bool := none
  min_kills : Option Int := none
  min_deaths : Option Int := none
  max_deaths : Option Int := none
  min_assists : Option Int := none
  min_kda : Option ℚ := none
  min_damage : Option Int := none
  min_healing : Option Int := none

/-- The per-record `include` computation of `filter_matches`: each active
criterion can only veto inclusion, so `include` ends true exactly when every
active criterion passes.  Datetime parsing and normalization
(`datetime.fromisoformat` plus the timezone stripping and the implied
`T00:00:00` / `T23:59:59` completion for date-only filter bounds) is
abstracted as the oracles `parseTs`, `parseMin`, `parseMax`; a parse failure
of either side (`none`) leaves the record included, mirroring the
warn-and-include `except` branch. -/
def matchIncluded (parseTs parseMin parseMax : String → Option Int)
    (f : MatchFilters) (m : NormalizedMatch) : Bool :=
  (match f.god_name with
   | none => true
   | some g => m.god_name == some g) &&
  (match f.mode with
   | none => true
   | some md => m.mode == some md) &&
  (match f.map with
   | none => true
   | some mp => m.map == some mp) &&
  (match f.min_date with
   | none => true
   | some ds =>
     match m.match_start with
     | none => true
     | some ts =>
       match parseTs ts, parseMin ds with
       | some md, some fd => !decide (md < fd)
       | _, _ => true) &&
  (match f.max_date with
   | none => true
   | some ds =>
     match m.match_start with
     | none => true
     | some ts =>
       match parseTs ts, parseMax ds with
       | some md, some fd => !decide (fd < md)
       | _, _ => true) &&
  (match f.win_only with
   | none => true
   | some b =>
     match m.winning_team, m.team_id with
     | some w, some t => if b then t == w else !(t == w)
     | _, _ => false) &&
  (match f.min_kills with
   | none => true
   | some x => !decide (statGetD m "Kills" 0 < x)) &&
  (match f.min_deaths with
   | none => true
   | some x => !decide (statGetD m "Deaths" 0 < x)) &&
  (match f.max_deaths with
   | none => true
   | some x => !decide (x < statGetD m "Deaths" 0)) &&
  (match f.min_assists with
   | none => true
   | some x => !decide (statGetD m "Assists" 0 < x)) &&
  (match f.min_kda with
   | none => true
   | some q =>
     let kills := statGetD m "Kills" 0
     let deaths := max (statGetD m "Deaths" 1) 1
     let assists := statGetD m "Assists" 0
     !decide ((((kills + assists : Int) : ℚ) / ((deaths : Int) : ℚ)) < q)) &&
  (match f.min_damage with
   | none => true
   | some x => !decide (statGetD m "TotalDamage" 0 < x)) &&
  (match f.min_healing with
   | none => true
   | some x =>
     !decide (statGetD m "TotalAllyHealing" 0 + statGetD m "TotalSelfHealing" 0 < x))

/-- Embedding of `filter_matches` (s2match.py lines 1164-1347):
a falsy `filters` argument returns the input unchanged, otherwise keep the
records whose `include` computation ends true. -/
def filter_matches (parseTs parseMin parseMax : String → Option Int)
    (filters : Option MatchFilters) (ms : List NormalizedMatch) :
    List NormalizedMatch :=
  match filters with
  | none => ms
  | some f => ms.filter (matchIncluded parseTs parseMin parseMax f)

/-- C8 -- When the `win_only` filter is active (and no other criterion is
set), `filter_matches` excludes every record that is missing `winning_team`
or missing `team_id`; for records carrying both, `win_only = True` keeps
exactly the records with `team_id` equal to `winning_team` and
`win_only = False` keeps exactly those with `team_id` different from
`winning_team`. -/
theorem win_only_filter_characterization
    (parseTs parseMin parseMax : String → Option Int) (b : Bool)
    (ms : List NormalizedMatch) :
    filter_matches parseTs parseMin parseMax (some { win_only := some b })
        ms =
      ms.filter (fun m =>
        match m.winning_team, m.team_id with
        | some w, some t => if b then t == w else !(t == w)
        | _, _ => false) := by
  unfold filter_matches
  apply List.filter_congr
  intro m _
  unfold matchIncluded
  simp only [Bool.true_and, Bool.and_true]

/-! ## Performance aggregation (s2match.py, `calculate_player_performance`) -/

/-- Per-god tallies accumulated by the loop (`matches_count` embeds the
Python dict key `"matches"`, which is a reserved word in Lean). -/
structure GodStats where
  matches_count : Nat
  wins : Nat
  kills : Int
  deaths : Int
  assists : Int
  damage : Int
deriving DecidableEq

/-- Per-mode tallies accumulated by the loop. -/
structure ModeStats where
  matches_count : Nat
  wins : Nat
  kills : Int
  deaths : Int
  assists : Int
deriving DecidableEq

/-- Per-role tallies accumulated by the loop. -/
structure RoleStats where
  matches_count : Nat
  wins : Nat
deriving DecidableEq

/-- The mutable accumulators of the `calculate_player_performance` loop. -/
structure PerfAcc where
  wins : Nat
  kills : Int
  deaths : Int
  assists : Int
  damage : Int
  healing : Int
  mitigated : Int
  structure_damage : Int
  minion_damage : Int
  gold_earned : Int
  wards_placed : Int
  god_stats : List (String × GodStats)
  mode_stats : List (String × ModeStats)
  role_stats : List (String × RoleStats)
deriving DecidableEq

/-- All accumulators start at zero / empty. -/
def initPerfAcc : PerfAcc :=
  ⟨0, 0, 0, 0, 0, 0, 0, 0, 0, 0, 0, [], [], []⟩

/-- Python `match.get("team_id") == match.get("winning_team")`
(note: two absent fields compare equal, exactly as `None == None`). -/
def isWin (m : NormalizedMatch) : Bool :=
  m.team_id == m.winning_team

/-- The `god_stats` upsert of one loop iteration
(s2match.py lines 1413-1432). -/
def updateGod (gs : List (String × GodStats)) (g : String) (won : Bool)
    (m : NormalizedMatch) : List (String × GodStats) :=
  let bump := fun (s : GodStats) =>
    { matches_count := s.matches_count + 1
      wins := s.wins + (if won then 1 else 0)
      kills := s.kills + statGetD m "Kills" 0
      deaths := s.deaths + statGetD m "Deaths" 0
      assists := s.assists + statGetD m "Assists" 0
      damage := s.damage + statGetD m "TotalDamage" 0 }
  if gs.any (fun e => e.1 == g) then
    gs.map (fun e => if e.1 == g then (e.1, bump e.2) else e)
  else gs ++ [(g, bump ⟨0, 0, 0, 0, 0, 0⟩)]

/-- The `mode_stats` upsert of one loop iteration
(s2match.py lines 1434-1451). -/
def updateMode (msl : List (String × ModeStats)) (md : String) (won : Bool)
    (m : NormalizedMatch) : List (String × ModeStats) :=
  let bump := fun (s : ModeStats) =>
    { matches_count := s.matches_count + 1
      wins := s.wins + (if won then 1 else 0)
      kills := s.kills + statGetD m "Kills" 0
      deaths := s.deaths + statGetD m "Deaths" 0
      assists := s.assists + statGetD m "Assists" 0 }
  if msl.any (fun e => e.1 == md) then
    msl.map (fun e => if e.1 == md then (e.1, bump e.2) else e)
  else msl ++ [(md, bump ⟨0, 0, 0, 0, 0⟩)]

/-- The `role_stats` upsert of one loop iteration
(s2match.py lines 1453-1464). -/
def updateRole (rs : List (String × RoleStats)) (r : String) (won : Bool) :
    List (String × RoleStats) :=
  let bump := fun (s : RoleStats) =>
    { matches_count := s.matches_count + 1
      wins := s.wins + (if won then 1 else 0) }
  if rs.any (fun e => e.1 == r) then
    rs.map (fun e => if e.1 == r then (e.1, bump e.2) else e)
  else rs ++ [(r, bump ⟨0, 0⟩)]

/-- One iteration of the `calculate_player_performance` loop
(s2match.py lines 1395-1464): bump the overall tallies, then the per-god,
per-mode and per-role groups (each tracked only when its key is truthy). -/
def perfStep (acc : PerfAcc) (m : NormalizedMatch) : PerfAcc :=
  let won := isWin m
  let acc1 := { acc with
    wins := acc.wins + (if won then 1 else 0)
    kills := acc.kills + statGetD m "Kills" 0
    deaths := acc.deaths + statGetD m "Deaths" 0
    assists := acc.assists + statGetD m "Assists" 0
    damage := acc.damage + statGetD m "TotalDamage" 0
    healing := acc.healing + statGetD m "TotalAllyHealing" 0 +
      statGetD m "TotalSelfHealing" 0
    mitigated := acc.mitigated + statGetD m "TotalDamageMitigated" 0
    structure_damage := acc.structure_damage + statGetD m "TotalStructureDamage" 0
    minion_damage := acc.minion_damage + statGetD m "TotalMinionDamage" 0
    gold_earned := acc.gold_earned + statGetD m "TotalGoldEarned" 0
    wards_placed := acc.wards_placed + statGetD m "TotalWardsPlaced" 0 }
  let acc2 := match m.god_name with
    | some g =>
      if g ≠ "" then { acc1 with god_stats := updateGod acc1.god_stats g won m }
      else acc1
    | none => acc1
  let acc3 := match m.mode with
    | some md =>
      if md ≠ "" then { acc2 with mode_stats := updateMode acc2.mode_stats md won m }
      else acc2
    | none => acc2
  match m.played_role with
  | some r =>
    if r ≠ "" then { acc3 with role_stats := updateRole acc3.role_stats r won }
    else acc3
  | none => acc3

/-- Average KDA of a god group, computed after the loop
(s2match.py line 1479): `(kills + assists) / max(deaths, 1)`. -/
def godAvgKda (s : GodStats) : ℚ :=
  ((s.kills + s.assists : Int) : ℚ) / ((max s.deaths 1 : Int) : ℚ)

/-- Python `max(iterable, key=...)`: the first element whose key no later
element strictly exceeds. -/
def pickMax {β γ : Type} [LinearOrder γ] (key : β → γ) : List β → Option β
  | [] => none
  | x :: xs => some (xs.foldl (fun best y => if key best < key y then y else best) x)

/-- The best-performing-god selection (s2match.py lines 1499-1501):
gods with at least 3 matches, highest `avg_kda`, else the favorite god. -/
def best_performing_god_of (gs : List (String × GodStats))
    (favorite : Option String) : Option String :=
  let best_gods := (gs.filter (fun e => decide (3 ≤ e.2.matches_count))).map Prod.fst
  match best_gods with
  | [] => favorite
  | _ :: _ =>
    pickMax (fun g => godAvgKda ((List.lookup g gs).getD ⟨0, 0, 0, 0, 0, 0⟩))
      best_gods

/-- The complete performance dictionary built after the loop
(s2match.py lines 1466-1537). -/
structure PerformanceStats where
  total_matches : Nat
  wins : Nat
  losses : Nat
  win_rate : ℚ
  avg_kills : ℚ
  avg_deaths : ℚ
  avg_assists : ℚ
  avg_kda : ℚ
  total_kills : Int
  total_deaths : Int
  total_assists : Int
  total_damage : Int
  total_healing : Int
  total_mitigated : Int
  total_structure_damage : Int
  total_minion_damage : Int
  total_gold_earned : Int
  total_wards_placed : Int
  avg_damage_per_match : ℚ
  avg_healing_per_match : ℚ
  avg_gold_per_match : ℚ
  avg_wards_per_match : ℚ
  favorite_god : Option String
  favorite_role : Option String
  favorite_mode : Option String
  best_performing_god : Option String
  god_stats : List (String × GodStats)
  mode_stats : List (String × ModeStats)
  role_stats : List (String × RoleStats)

/-- The non-empty branch of `calculate_player_performance`
(s2match.py lines 1377-1537). -/
def mkPerformance (ms : List NormalizedMatch) : PerformanceStats :=
  let total := ms.length
  let a := ms.foldl perfStep initPerfAcc
  let favorite_god := (pickMax (fun e => e.2.matches_count) a.god_stats).map Prod.fst
  let favorite_role := (pickMax (fun e => e.2.matches_count) a.role_stats).map Prod.fst
  let favorite_mode := (pickMax (fun e => e.2.matches_count) a.mode_stats).map Prod.fst
  { total_matches := total
    wins := a.wins
    losses := total - a.wins
    win_rate := if 0 < total then (a.wins : ℚ) / (total : ℚ) else 0
    avg_kills := if 0 < total then (a.kills : ℚ) / (total : ℚ) else 0
    avg_deaths := if 0 < total then (a.deaths : ℚ) / (total : ℚ) else 0
    avg_assists := if 0 < total then (a.assists : ℚ) / (total : ℚ) else 0
    avg_kda := ((a.kills + a.assists : Int) : ℚ) / ((max a.deaths 1 : Int) : ℚ)
    total_kills := a.kills
    total_deaths := a.deaths
    total_assists := a.assists
    total_damage := a.damage
    total_healing := a.healing
    total_mitigated := a.mitigated
    total_structure_damage := a.structure_damage
    total_minion_damage := a.minion_damage
    total_gold_earned := a.gold_earned
    total_wards_placed := a.wards_placed
    avg_damage_per_match := if 0 < total then (a.damage : ℚ) / (total : ℚ) else 0
    avg_healing_per_match := if 0 < total then (a.healing : ℚ) / (total : ℚ) else 0
    avg_gold_per_match := if 0 < total then (a.gold_earned : ℚ) / (total : ℚ) else 0
    avg_wards_per_match := if 0 < total then (a.wards_placed : ℚ) / (total : ℚ) else 0
    favorite_god := favorite_god
    favorite_role := favorite_role
    favorite_mode := favorite_mode
    best_performing_god := best_performing_god_of a.god_stats favorite_god
    god_stats := a.god_stats
    mode_stats := a.mode_stats
    role_stats := a.role_stats }

/-- Embedding of `calculate_player_performance` (s2match.py lines 1349-1537):
an empty input returns the empty result (`{}`, here `none`). -/
def calculate_player_performance (ms : List NormalizedMatch) :
    Option PerformanceStats :=
  if ms.isEmpty then none else some (mkPerformance ms)

/-! ### Lemmas about `calculate_player_performance` -/

lemma foldl_pickMax_spec {β γ : Type} [LinearOrder γ] (key : β → γ)
    (xs : List β) : ∀ x : β,
    (xs.foldl (fun best y => if key best < key y then y else best) x) ∈ x :: xs ∧
    key x ≤ key (xs.foldl (fun best y => if key best < key y then y else best) x) ∧
    ∀ y ∈ xs,
      key y ≤ key (xs.foldl (fun best y => if key best < key y then y else best) x) := by
  induction xs with
  | nil =>
    intro x
    refine ⟨List.mem_singleton_self x, le_refl _, ?_⟩
    intro y hy; cases hy
  | cons z zs ih =>
    intro x
    rw [List.foldl_cons]
    obtain ⟨h1, h2, h3⟩ := ih (if key x < key z then z else x)
    have hxw : key x ≤ key (if key x < key z then z else x) := by
      split
      · exact le_of_lt (by assumption)
      · exact le_refl _
    have hzw : key z ≤ key (if key x < key z then z else x) := by
      split
      · exact le_refl _
      · exact le_of_not_lt (by assumption)
    refine ⟨?_, le_trans hxw h2, ?_⟩
    · rcases List.mem_cons.mp h1 with h | h
      · rw [h]
        split
        · simp
        · simp
      · simp [h]
    · intro y hy
      rcases List.mem_cons.mp hy with h | h
      · rw [h]; exact le_trans hzw h2
      · exact h3 y h

lemma pickMax_spec {β γ : Type} [LinearOrder γ] (key : β → γ) (x : β)
    (xs : List β) :
    ∃ r, pickMax key (x :: xs) = some r ∧ r ∈ x :: xs ∧
      ∀ y ∈ x :: xs, key y ≤ key r := by
  obtain ⟨h1, h2, h3⟩ := foldl_pickMax_spec key xs x
  refine ⟨_, rfl, h1, ?_⟩
  intro y hy
  rcases List.mem_cons.mp hy with h | h
  · rw [h]; exact h2
  · exact h3 y h

lemma upsert_keys {β : Type} (l : List (String × β)) (g : String)
    (f : String × β → β) :
    (l.map (fun e => if e.1 == g then (e.1, f e) else e)).map Prod.fst =
      l.map Prod.fst := by
  induction l with
  | nil => rfl
  | cons e rest ih =>
    obtain ⟨k, v⟩ := e
    simp only [List.map_cons, ih]
    congr 1
    split <;> rfl

lemma updateGod_keys_nodup (gs : List (String × GodStats)) (g : String)
    (won : Bool) (m : NormalizedMatch)
    (h : (gs.map Prod.fst).Nodup) :
    ((updateGod gs g won m).map Prod.fst).Nodup := by
  simp only [updateGod]
  split
  · rw [upsert_keys]
    exact h
  · rename_i hany
    rw [List.map_append]
    simp only [List.map_cons, List.map_nil]
    rw [List.nodup_append]
    refine ⟨h, List.nodup_singleton _, ?_⟩
    intro x hx hxg
    simp only [List.mem_singleton] at hxg
    subst hxg
    obtain ⟨e, he, hfst⟩ := List.mem_map.mp hx
    exact hany (List.any_eq_true.mpr ⟨e, he, by simp [hfst]⟩)

/-- The effect of one loop iteration on `god_stats` alone. -/
def stepGodStats (gs : List (String × GodStats)) (m : NormalizedMatch) :
    List (String × GodStats) :=
  match m.god_name with
  | some g => if g ≠ "" then updateGod gs g (isWin m) m else gs
  | none => gs

lemma perfStep_god_stats (acc : PerfAcc) (m : NormalizedMatch) :
    (perfStep acc m).god_stats = stepGodStats acc.god_stats m := by
  unfold perfStep stepGodStats
  rcases m.god_name with _ | g <;> rcases m.mode with _ | md <;>
    rcases m.played_role with _ | r <;> dsimp only <;> split_ifs <;> rfl

lemma foldl_perfStep_god_stats (ms : List NormalizedMatch) :
    ∀ acc : PerfAcc,
      (ms.foldl perfStep acc).god_stats = ms.foldl stepGodStats acc.god_stats := by
  induction ms with
  | nil => intro acc; rfl
  | cons m rest ih =>
    intro acc
    rw [List.foldl_cons, List.foldl_cons, ih]
    congr 1
    exact perfStep_god_stats acc m

lemma god_stats_keys_nodup (ms : List NormalizedMatch) :
    ∀ gs : List (String × GodStats), (gs.map Prod.fst).Nodup →
      ((ms.foldl stepGodStats gs).map Prod.fst).Nodup := by
  induction ms with
  | nil => intro gs h; exact h
  | cons m rest ih =>
    intro gs h
    rw [List.foldl_cons]
    apply ih
    cases hgn : m.god_name with
    | none => simpa [stepGodStats, hgn] using h
    | some g =>
      by_cases hge : g = ""
      · simpa [stepGodStats, hgn, hge] using h
      · simpa [stepGodStats, hgn, hge] using
          updateGod_keys_nodup gs g (isWin m) m h

lemma lookup_eq_of_mem_nodup (gs : List (String × GodStats)) (g : String)
    (s : GodStats) (hnd : (gs.map Prod.fst).Nodup) (hmem : (g, s) ∈ gs) :
    List.lookup g gs = some s := by
  induction gs with
  | nil => cases hmem
  | cons e rest ih =>
    obtain ⟨k, v⟩ := e
    rw [List.map_cons] at hnd
    rcases List.mem_cons.mp hmem with he | he
    · injection he with h1 h2
      subst h1; subst h2
      simp [List.lookup_cons]
    · have hk : g ≠ k := by
        intro hgk; subst hgk
        exact (List.nodup_cons.mp hnd).1 (List.mem_map.mpr ⟨(g, s), he, rfl⟩)
      simp only [List.lookup_cons, beq_false_of_ne hk]
      exact ih (List.nodup_cons.mp hnd).2 he

lemma best_performing_god_of_spec (gs : List (String × GodStats))
    (fav : Option String) (hnd : (gs.map Prod.fst).Nodup) :
    ((gs.filter (fun e => decide (3 ≤ e.2.matches_count))) = [] →
      best_performing_god_of gs fav = fav) ∧
    (∀ g s, (g, s) ∈ gs.filter (fun e => decide (3 ≤ e.2.matches_count)) →
      ∃ gb sb, (gb, sb) ∈ gs.filter (fun e => decide (3 ≤ e.2.matches_count)) ∧
        best_performing_god_of gs fav = some gb ∧
        godAvgKda s ≤ godAvgKda sb) := by
  constructor
  · intro hq
    simp [best_performing_god_of, hq]
  · intro g s hmem
    cases hq : (gs.filter (fun e => decide (3 ≤ e.2.matches_count))).map Prod.fst with
    | nil =>
      exfalso
      have : g ∈ (gs.filter (fun e => decide (3 ≤ e.2.matches_count))).map Prod.fst :=
        List.mem_map.mpr ⟨(g, s), hmem, rfl⟩
      rw [hq] at this
      cases this
    | cons x xs =>
      obtain ⟨r, hr, hrmem, hrmax⟩ := pickMax_spec
        (fun g' => godAvgKda ((List.lookup g' gs).getD ⟨0, 0, 0, 0, 0, 0⟩)) x xs
      rw [← hq] at hrmem
      obtain ⟨⟨gb', sb⟩, hba, hbfst⟩ := List.mem_map.mp hrmem
      simp only at hbfst
      subst hbfst
      have hsb_gs : (gb', sb) ∈ gs := List.mem_of_mem_filter hba
      have hlook_r : List.lookup gb' gs = some sb :=
        lookup_eq_of_mem_nodup gs gb' sb hnd hsb_gs
      have hg_gs : (g, s) ∈ gs := List.mem_of_mem_filter hmem
      have hlook_g : List.lookup g gs = some s :=
        lookup_eq_of_mem_nodup gs g s hnd hg_gs
      have hgmem : g ∈ (gs.filter (fun e => decide (3 ≤ e.2.matches_count))).map Prod.fst :=
        List.mem_map.mpr ⟨(g, s), hmem, rfl⟩
      rw [hq] at hgmem
      have hle := hrmax g hgmem
      rw [hlook_g, hlook_r] at hle
      refine ⟨gb', sb, hba, ?_, by simpa using hle⟩
      simp only [best_performing_god_of, hq]
      exact hr

/-- C9 -- `calculate_player_performance` returns an empty result for an empty
match list; for a non-empty list it reports `best_performing_god` as the god
with the highest average KDA among gods with at least 3 matches, falling back
to the most-played (favorite) god when no god has 3 or more matches. -/
theorem performance_empty_and_best_god_rule :
    calculate_player_performance [] = none ∧
    (∀ ms : List NormalizedMatch, ms ≠ [] →
      calculate_player_performance ms = some (mkPerformance ms) ∧
      ((mkPerformance ms).god_stats.filter
          (fun e => decide (3 ≤ e.2.matches_count)) = [] →
        (mkPerformance ms).best_performing_god =
          (mkPerformance ms).favorite_god) ∧
      (∀ g s, (g, s) ∈ (mkPerformance ms).god_stats.filter
          (fun e => decide (3 ≤ e.2.matches_count)) →
        ∃ gb sb, (gb, sb) ∈ (mkPerformance ms).god_stats.filter
            (fun e => decide (3 ≤ e.2.matches_count)) ∧
          (mkPerformance ms).best_performing_god = some gb ∧
          godAvgKda s ≤ godAvgKda sb)) := by
  constructor
  · rfl
  · intro ms hms
    have hnd : (((mkPerformance ms).god_stats).map Prod.fst).Nodup := by
      have h1 : (mkPerformance ms).god_stats =
          ms.foldl stepGodStats initPerfAcc.god_stats :=
        foldl_perfStep_god_stats ms initPerfAcc
      rw [h1]
      exact god_stats_keys_nodup ms initPerfAcc.god_stats (by simp [initPerfAcc])
    have hbest : (mkPerformance ms).best_performing_god =
        best_performing_god_of (mkPerformance ms).god_stats
          (mkPerformance ms).favorite_god := rfl
    refine ⟨?_, ?_, ?_⟩
    · cases ms with
      | nil => exact absurd rfl hms
      | cons m rest => rfl
    · intro hq
      rw [hbest]
      exact (best_performing_god_of_spec _ _ hnd).1 hq
    · intro g s hmem
      rw [hbest]
      exact (best_performing_god_of_spec _ _ hnd).2 g s hmem

/-- A one-match history: the only god has fewer than 3 matches, so the
best-performing god falls back to the favorite. -/
def msOneMatch : List NormalizedMatch :=
  [{ god_name := some "Anubis", team_id := some 1, winning_team := some 1,
     basic_stats := [("Kills", 5), ("Deaths", 2), ("Assists", 3)] }]

/-- Closed witness for `performance_empty_and_best_god_rule`: on the
one-match history no god reaches 3 matches, and the best-performing god
equals the favorite god. -/
theorem performance_empty_and_best_god_rule_witness :
    (mkPerformance msOneMatch).best_performing_god =
      (mkPerformance msOneMatch).favorite_god :=
  ((performance_empty_and_best_god_rule.2 msOneMatch (by decide)).2.1)
    (by decide)

/-! ## Fetcher and cache (s2match.py, `get_access_token`,
`fetch_matches_by_player_uuid`) -/

/-- A network request observable from outside the client: the token-endpoint
POST issued by `get_access_token`, or a match-history GET (with the cursor it
carries). -/
inductive NetRequest where
  | tokenReq
  | matchReq (cursor : Option String)
deriving DecidableEq

/-- Matches the match-endpoint requests in a request log. -/
def isMatchReq : NetRequest → Bool
  | .matchReq _ => true
  | .tokenReq => false

/-- The network oracle: the wall clock, the grant returned by the token
endpoint, and the page returned by the match endpoint for each cursor
(`player_matches` list, next cursor).  `α` is the opaque type of raw match
records; the fetcher never inspects them. -/
structure NetEnv (α : Type) where
  now : Int
  tokenResp : String
  tokenExpiresIn : Nat
  pages : Option String → List α × Option String

/-- The client state the fetcher touches: the token cache and the response
cache (an insertion-shadowing association list standing for the Python
dict). -/
structure ClientState (α : Type) where
  cacheEnabled : Bool
  accessToken : Option String
  tokenExpiry : Int
  cache : List (String × List α)

/-- Embedding of `get_access_token` (s2match.py lines 85-131): return the
cached token when it is truthy and unexpired, otherwise issue one
token-endpoint request (itself routed through the retry executor; modelled
as a single successful `tokenReq`) and store the new token with expiry
`now + int(expires_in * 0.9)`. -/
def get_access_token {α : Type} (env : NetEnv α) (st : ClientState α) :
    String × ClientState α × List NetRequest :=
  let refresh :=
    (env.tokenResp,
     { st with accessToken := some env.tokenResp,
               tokenExpiry := env.now + ((9 * env.tokenExpiresIn) / 10 : Nat) },
     [NetRequest.tokenReq])
  match st.accessToken with
  | some tok =>
    if tok ≠ "" ∧ env.now < st.tokenExpiry then (tok, st, []) else refresh
  | none => refresh

/-- The cache key `f"matches_player_{player_uuid}_{page_size}_{max_matches}"`
(s2match.py line 301). -/
def cacheKey (player_uuid : String) (page_size max_matches : Nat) : String :=
  "matches_player_" ++ player_uuid ++ "_" ++ toString page_size ++ "_" ++
    toString max_matches

/-- The pagination loop of `fetch_matches_by_player_uuid` (s2match.py lines
306-329): request pages while fewer than `max_matches` records are
accumulated, stopping when the returned cursor is falsy (`None` or `""`).
The Python `while` can loop forever against a pathological server (empty
pages with fresh cursors), so the embedded recursion carries explicit
`fuel`, chosen large enough in every theorem. -/
def fetchLoop {α : Type} (env : NetEnv α) (max_matches : Nat) :
    Nat → Option String → List α → List α × List NetRequest
  | 0, _, acc => (acc, [])
  | fuel + 1, cursor, acc =>
    if acc.length < max_matches then
      let page := env.pages cursor
      let acc' := acc ++ page.1
      if page.2 = none ∨ page.2 = some "" then
        (acc', [NetRequest.matchReq cursor])
      else
        let rest := fetchLoop env max_matches fuel page.2 acc'
        (rest.1, NetRequest.matchReq cursor :: rest.2)
    else (acc, [])

/-- Embedding of `fetch_matches_by_player_uuid` (s2match.py lines 276-336):
obtain a token first, then consult the cache, then paginate, truncate to
`max_matches`, and store the result under the cache key. -/
def fetch_matches_by_player_uuid {α : Type} (env : NetEnv α)
    (st : ClientState α) (player_uuid : String)
    (page_size max_matches fuel : Nat) :
    List α × ClientState α × List NetRequest :=
  let tkn := get_access_token env st
  let st1 := tkn.2.1
  let key := cacheKey player_uuid page_size max_matches
  match (if st1.cacheEnabled then List.lookup key st1.cache else none) with
  | some cached => (cached, st1, tkn.2.2)
  | none =>
    let fetched := fetchLoop env max_matches fuel none []
    let result := fetched.1.take max_matches
    let st2 :=
      if st1.cacheEnabled then { st1 with cache := (key, result) :: st1.cache }
      else st1
    (result, st2, tkn.2.2 ++ fetched.2)

/-- Concrete network oracle over `Nat` match records. -/
def envCE : NetEnv Nat :=
  { now := 5, tokenResp := "tok", tokenExpiresIn := 3600,
    pages := fun _ => ([], none) }

/-- Concrete client state: caching on, cache already holding the key for
player `"p"` with `page_size = 10, max_matches = 100`, but no access token. -/
def stCE : ClientState Nat :=
  { cacheEnabled := true, accessToken := none, tokenExpiry := 0,
    cache := [(cacheKey "p" 10 100, [42])] }

/-- C2 counterexample -- on a cache hit with no valid token, the call still
performs network activity: `get_access_token` runs before the cache check
(s2match.py line 299 precedes line 302) and issues a token-endpoint request,
even though the cached value is returned unchanged. -/
theorem cache_hit_still_issues_token_request :
    (fetch_matches_by_player_uuid envCE stCE "p" 10 100 1).1 = [42] ∧
    (fetch_matches_by_player_uuid envCE stCE "p" 10 100 1).2.2 =
      [NetRequest.tokenReq] := by
  exact ⟨rfl, rfl⟩

/-- C2 (amended) -- A cache hit returns the previously stored value unchanged
and issues no match-endpoint request, but the token manager (invoked before
the cache check) may still issue a token request.  When the instance already
holds a valid token, the cache misses, and the first page carries no cursor,
two identical fetch calls issue exactly one network request in total: the
first call's single match-endpoint request, the second call touching the
network not at all. -/
theorem cache_hit_no_match_requests_and_second_call_silent :
    (∀ (α : Type) (env : NetEnv α) (st : ClientState α) (uuid : String)
        (ps mm fuel : Nat) (v : List α),
      st.cacheEnabled = true →
      List.lookup (cacheKey uuid ps mm) st.cache = some v →
      (fetch_matches_by_player_uuid env st uuid ps mm fuel).1 = v ∧
      ((fetch_matches_by_player_uuid env st uuid ps mm fuel).2.2.filter
        isMatchReq) = []) ∧
    (∀ (α : Type) (env : NetEnv α) (st : ClientState α) (uuid : String)
        (ps mm fuel : Nat) (t : String),
      st.cacheEnabled = true →
      st.accessToken = some t → t ≠ "" → env.now < st.tokenExpiry →
      List.lookup (cacheKey uuid ps mm) st.cache = none →
      (env.pages none).2 = none → 0 < mm → 0 < fuel →
      (fetch_matches_by_player_uuid env st uuid ps mm fuel).2.2 =
        [NetRequest.matchReq none] ∧
      (fetch_matches_by_player_uuid env
          (fetch_matches_by_player_uuid env st uuid ps mm fuel).2.1
          uuid ps mm fuel).2.2 = []) := by
  constructor
  · intro α env st uuid ps mm fuel v hc hv
    rcases hat : st.accessToken with _ | tok
    · simp [fetch_matches_by_player_uuid, get_access_token, hat, hc, hv,
        isMatchReq]
    · by_cases hcond : tok ≠ "" ∧ env.now < st.tokenExpiry
      · simp [fetch_matches_by_player_uuid, get_access_token, hat, hcond, hc,
          hv, isMatchReq]
      · simp [fetch_matches_by_player_uuid, get_access_token, hat, hcond, hc,
          hv, isMatchReq]
  · intro α env st uuid ps mm fuel t hc hat hne hexp hmiss hpages hmm hfuel
    obtain ⟨f, rfl⟩ : ∃ f, fuel = f + 1 := ⟨fuel - 1, by omega⟩
    rcases hpg : env.pages none with ⟨pm, c2⟩
    rw [hpg] at hpages
    simp only at hpages
    subst hpages
    have hfetch1 : fetch_matches_by_player_uuid env st uuid ps mm (f + 1) =
        (pm.take mm,
         { st with cache :=
            (cacheKey uuid ps mm, pm.take mm) :: st.cache },
         [NetRequest.matchReq none]) := by
      simp [fetch_matches_by_player_uuid, get_access_token, fetchLoop, hat,
        hne, hexp, hmiss, hc, hpg, hmm]
    refine ⟨by rw [hfetch1], ?_⟩
    rw [hfetch1]
    simp [fetch_matches_by_player_uuid, get_access_token, hat, hne, hexp, hc,
      List.lookup_cons]

/-- Client state with a valid token and a warm cache entry. -/
def stHit : ClientState Nat :=
  { cacheEnabled := true, accessToken := some "tok", tokenExpiry := 10,
    cache := [(cacheKey "p" 10 100, [42])] }

/-- Client state with a valid token and an empty cache. -/
def stMiss : ClientState Nat :=
  { cacheEnabled := true, accessToken := some "tok", tokenExpiry := 10,
    cache := [] }

/-- Closed witness for
`cache_hit_no_match_requests_and_second_call_silent`: a cache hit returns
the stored `[42]` with no match-endpoint request, and a cache miss with a
valid token issues exactly one match-endpoint request. -/
theorem cache_hit_no_match_requests_witness :
    (fetch_matches_by_player_uuid envCE stHit "p" 10 100 1).1 = [42] ∧
    ((fetch_matches_by_player_uuid envCE stHit "p" 10 100 1).2.2.filter
      isMatchReq) = [] ∧
    (fetch_matches_by_player_uuid envCE stMiss "p" 10 100 1).2.2 =
      [NetRequest.matchReq none] := by
  have h1 := cache_hit_no_match_requests_and_second_call_silent.1
    Nat envCE stHit "p" 10 100 1 [42] rfl rfl
  have h2 := cache_hit_no_match_requests_and_second_call_silent.2
    Nat envCE stMiss "p" 10 100 1 "tok" rfl rfl (by decide) (by decide)
    rfl rfl (by decide) (by decide)
  exact ⟨h1.1, h1.2, h2.1⟩

end S2Match
